import Mathlib

/-!
Verification of the EM27-GUI instrument-control protocol layer.

The definitions below are a shallow embedding of the Python sources:
- `src/controllers/ac_controller.py` (identically duplicated in
  `src/AC_gui_simplified.py`): the `ACModbusController` register model
  for the Seifert/SCE AC unit;
- `src/drivers/motor.py`: the motor driver (CRC, frame construction,
  acknowledgement parsing);
- `src/motor_cont.py` and `src/controllers/motor_controller.py`:
  the motion pacer (`_paced_move`, `_budget_wait_or_stop`).

Serial transport is modelled by an explicit world: a register file
`regs : Nat → Nat`, a predicate `writeOk : Nat → Bool` saying which
addresses accept writes, and the controller's remembered flags write
address `fwa`.  Every transport interaction is recorded in a trace of
`ACEvent`s so that claims about ordering and about which operations
reach the wire can be stated directly.  Python floats are modelled by
`ℚ`; `round` (banker's rounding) is modelled by `pyRound`.  Wall-clock
loops of the motion pacer are discretized by poll counts.
-/

namespace EM27

/-! ## AC controller: constants and helpers (ac_controller.py lines 29-75) -/

def REG_SET_COOL : Nat := 0
def REG_SET_ALARM_HI : Nat := 1
def REG_SET_ALARM_LO : Nat := 2
def REG_SET_HEATER : Nat := 3
def REG_ENABLE_FLAGS_READ : Nat := 4
def REG_ENABLE_FLAGS_WRITE_CAND : List Nat := [4, 6]
def REG_READ_SENSOR : Nat := 12

def BIT_INPUT1_INVERT : Nat := 8
def BIT_LOCK_KEYPAD : Nat := 10
def BIT_TEMP_UNIT_FAHRENHEIT : Nat := 11
def BIT_NETWORK_SETPOINTS : Nat := 9

def to_signed_16 (u : Nat) : Int :=
  if u ≥ 0x8000 then (u : Int) - 0x10000 else (u : Int)

def reg_to_val (raw : Nat) : ℚ := (to_signed_16 raw : ℚ) / 10

/-- Python `round` on an exact rational: round half to even. -/
def pyRound (q : ℚ) : Int :=
  if q - ⌊q⌋ < 1/2 then ⌊q⌋
  else if 1/2 < q - ⌊q⌋ then ⌊q⌋ + 1
  else if ⌊q⌋ % 2 = 0 then ⌊q⌋ else ⌊q⌋ + 1

def c_to_reg (val_c : ℚ) : Int := pyRound (val_c * 10)

def clamp (v lo hi : ℚ) : ℚ := if v < lo then lo else if v > hi then hi else v

/-! ## AC controller: transport world and events -/

/-- One observable transport interaction of the AC controller:
a holding-register read, or a write attempt (with its outcome). -/
inductive ACEvent
  | read (addr : Nat)
  | write (addr : Nat) (val : Int) (ok : Bool)
deriving DecidableEq, Repr

/-- Controller plus device state: the remembered flags write address
(`self.flags_write_addr`), the device register file, and which
addresses the device accepts writes at. -/
structure ACWorld where
  fwa : Option Nat
  regs : Nat → Nat
  writeOk : Nat → Bool

/-- `_write_reg` (ac_controller.py lines 173-183): attempt a register
write; on device refusal a `ModbusException` is raised (`ok = false`). -/
def writeReg (w : ACWorld) (a : Nat) (v : Int) : Bool × ACWorld × ACEvent :=
  if w.writeOk a then
    (true,
     { w with regs := fun x => if x = a then (v.emod 65536).toNat else w.regs x },
     ACEvent.write a v true)
  else
    (false, w, ACEvent.write a v false)

/-- `_power_on_from_flags` (lines 211-213): ACTIVE-LOW, bit clear means ON. -/
def power_on_from_flags (flags : Nat) : Bool :=
  ((flags >>> BIT_INPUT1_INVERT) &&& 1) == 0

/-- `_net_on_from_flags` (lines 215-216). -/
def net_on_from_flags (flags : Nat) : Bool :=
  ((flags >>> BIT_NETWORK_SETPOINTS) &&& 1) == 1

/-- The flags word assembled by `write_flags` (lines 225-231):
start from 0, set the power-invert bit when power is requested OFF,
always set keypad-lock, optionally set network-setpoints.  The
Fahrenheit bit is never set (Celsius forced). -/
def flagsWord (power_on net_on : Bool) : Nat :=
  ((if power_on then 0 else 2 ^ BIT_INPUT1_INVERT) |||
    2 ^ BIT_LOCK_KEYPAD) |||
    (if net_on then 2 ^ BIT_NETWORK_SETPOINTS else 0)

/-- The word `write_flags` computes from its arguments and the
currently-read flags: `force_net` overrides, otherwise the NET bit of
the current word is preserved (lines 220-223). -/
def flagsWordOf (power_on : Bool) (force_net : Option Bool) (current : Nat) : Nat :=
  flagsWord power_on
    (match force_net with
     | some b => b
     | none => net_on_from_flags current)

/-- The candidate loop of `write_flags` (lines 234-242): try each
address in order, remember the first success; if all attempts fail the
last error is re-raised (`false`). -/
def tryAddrs (w : ACWorld) (word : Nat) : List Nat → Bool × ACWorld × List ACEvent
  | [] => (false, w, [])
  | a :: rest =>
    let r := writeReg w a (word : Int)
    if r.1 then
      (true, { r.2.1 with fwa := some a }, [r.2.2])
    else
      let s := tryAddrs r.2.1 word rest
      (s.1, s.2.1, r.2.2 :: s.2.2)

/-- `write_flags` (lines 218-242): read current flags (error-suppressed
in Python, total here), compute the word, then write it to the sticky
address if one is remembered, else probe the candidate list. -/
def write_flags (w : ACWorld) (power_on : Bool) (force_net : Option Bool) :
    Bool × ACWorld × List ACEvent :=
  let current := w.regs REG_ENABLE_FLAGS_READ
  let word := flagsWordOf power_on force_net current
  let addrs := match w.fwa with
    | some a => [a]
    | none => REG_ENABLE_FLAGS_WRITE_CAND
  let r := tryAddrs w word addrs
  (r.1, r.2.1, ACEvent.read REG_ENABLE_FLAGS_READ :: r.2.2)

/-- The echo-write probe loop of `_detect_flags_write_address`
(lines 192-198). -/
def detectLoop (w : ACWorld) (cur : Nat) : List Nat → ACWorld × List ACEvent
  | [] => ({ w with fwa := none }, [])
  | a :: rest =>
    let r := writeReg w a (cur : Int)
    if r.1 then
      ({ r.2.1 with fwa := some a }, [r.2.2])
    else
      let s := detectLoop r.2.1 cur rest
      (s.1, r.2.2 :: s.2)

/-- `_detect_flags_write_address` (lines 192-198): read current flags,
echo-write them to each candidate, remember the first that succeeds. -/
def detectFlags (w : ACWorld) : ACWorld × List ACEvent :=
  let cur := w.regs REG_ENABLE_FLAGS_READ
  let s := detectLoop w cur REG_ENABLE_FLAGS_WRITE_CAND
  (s.1, ACEvent.read REG_ENABLE_FLAGS_READ :: s.2)

/-- The `do_writes` inner loop of `write_setpoints_c` (lines 261-268):
write each (address, value) pair in order; a failed write raises,
aborting the remaining writes. -/
def doWritesLoop (w : ACWorld) : List (Nat × Int) → Bool × ACWorld × List ACEvent
  | [] => (true, w, [])
  | (a, v) :: rest =>
    let r := writeReg w a v
    if r.1 then
      let s := doWritesLoop r.2.1 rest
      (s.1, s.2.1, r.2.2 :: s.2.2)
    else
      (false, r.2.1, [r.2.2])

/-- `write_setpoints_c` (lines 245-280).  Returns
(no-exception?, final world, transport trace).  Validation (derive,
clamp, ordering check) happens before any transport interaction; on
violation a `ValueError` is raised with an empty trace and unchanged
world.  Otherwise flags are read; if the network-setpoints bit is off,
it is temporarily forced on around the four setpoint writes and
restored in a `finally` whose own failure is suppressed. -/
def write_setpoints_c (w : ACWorld) (heater_c cooling_c : ℚ) :
    Bool × ACWorld × List ACEvent :=
  let lo := clamp (heater_c - 2) (-20) 25
  let heat := clamp heater_c (-5) 35
  let cool := clamp cooling_c 20 60
  let hi := clamp (cooling_c + 5) 30 80
  if lo < heat - 1 ∧ heat < cool - 1 ∧ cool < hi - 1 then
    let initial := w.regs REG_ENABLE_FLAGS_READ
    let had_net := net_on_from_flags initial
    let had_power := power_on_from_flags initial
    let writes := [(REG_SET_ALARM_LO, c_to_reg lo), (REG_SET_HEATER, c_to_reg heat),
                   (REG_SET_COOL, c_to_reg cool), (REG_SET_ALARM_HI, c_to_reg hi)]
    if had_net then
      let s := doWritesLoop w writes
      (s.1, s.2.1, ACEvent.read REG_ENABLE_FLAGS_READ :: s.2.2)
    else
      let f1 := write_flags w had_power (some true)
      if f1.1 then
        let s := doWritesLoop f1.2.1 writes
        let f2 := write_flags s.2.1 had_power (some false)
        (s.1, f2.2.1,
         ACEvent.read REG_ENABLE_FLAGS_READ :: (f1.2.2 ++ s.2.2 ++ f2.2.2))
      else
        let f2 := write_flags f1.2.1 had_power (some false)
        (false, f2.2.1, ACEvent.read REG_ENABLE_FLAGS_READ :: (f1.2.2 ++ f2.2.2))
  else
    (false, w, [])

/-- The register-write addresses occurring in a trace, in order. -/
def writeAddrsOf (tr : List ACEvent) : List Nat :=
  tr.filterMap fun e => match e with
    | ACEvent.write a _ _ => some a
    | _ => none

/-- The register-write events occurring in a trace, in order. -/
def writeEventsOf (tr : List ACEvent) : List ACEvent :=
  tr.filter fun e => match e with
    | ACEvent.write _ _ _ => true
    | _ => false

/-! ## Motor driver (drivers/motor.py) -/

def SLAVE_ID : Nat := 1
def TRACKER_SPEED : Nat := 1000
def TRACKER_CURRENT : Nat := 1000

/-- One inner round of `modbus_crc16` (lines 21-26). -/
def crcRound (crc : Nat) : Nat :=
  if crc &&& 1 = 1 then (crc >>> 1) ^^^ 0xA001 else crc >>> 1

/-- `modbus_crc16` (lines 17-27): CRC-16 with initial value 0xFFFF;
each byte is XORed in and followed by 8 shift/conditional-XOR rounds
with the reflected polynomial 0xA001. -/
def modbus_crc16 (data : List Nat) : Nat :=
  data.foldl (fun crc b => crcRound^[8] (crc ^^^ b)) 0xFFFF

/-- Reference bit-level step of the standard reflected CRC-16/Modbus:
shift right, and XOR the polynomial in when the old LSB differs from
the incoming message bit. -/
def crcSpecStep (bit : Bool) (crc : Nat) : Nat :=
  if xor (decide (crc &&& 1 = 1)) bit then (crc >>> 1) ^^^ 0xA001 else crc >>> 1

/-- Feed the `k` low bits of `b`, LSB first, through `crcSpecStep`. -/
def crcSpecAux : Nat → Nat → Nat → Nat
  | 0, crc, _ => crc
  | k + 1, crc, b => crcSpecAux k (crcSpecStep (b.testBit 0) crc) (b >>> 1)

/-- Reference byte step: feed the byte's 8 bits LSB first. -/
def crcSpecByte (crc b : Nat) : Nat := crcSpecAux 8 crc b

/-- The standard Modbus CRC-16 reference definition: initial value
0xFFFF, each byte processed bit by bit (LSB first) against the
reflected polynomial 0xA001. -/
def crc16_ref (data : List Nat) : Nat := data.foldl crcSpecByte 0xFFFF

/-- Python `crc.to_bytes(2, 'little')`: low byte then high byte. -/
def toLeBytes (x : Nat) : List Nat := [x &&& 0xFF, (x >>> 8) &&& 0xFF]

/-- A request frame as built throughout `drivers/motor.py`: the payload
followed by its CRC, little-endian. -/
def buildFrame (req : List Nat) : List Nat := req ++ toLeBytes (modbus_crc16 req)

/-- Python `v.to_bytes(4, 'big', signed=True)`: 4 bytes, big-endian,
two's complement. -/
def int_to_bytes_be4 (v : Int) : List Nat :=
  let u := (v.emod 4294967296).toNat
  [(u >>> 24) &&& 255, (u >>> 16) &&& 255, (u >>> 8) &&& 255, u &&& 255]

/-- The "real" payload of `move_to` (lines 115-122): fixed 8-byte
prologue, angle, fixed speed, fixed mid bytes, fixed current, fixed
4-byte epilogue. -/
def movePayload (angle : Int) : List Nat :=
  ([0x00, 0x00, 0x00, 0x00, 0x00, 0x00, 0x00, 0x01] ++ int_to_bytes_be4 angle ++
    int_to_bytes_be4 (TRACKER_SPEED : Int) ++
    [0x00, 0x0F, 0x1F, 0x40, 0x00, 0x0F, 0x1F, 0x40] ++
    int_to_bytes_be4 (TRACKER_CURRENT : Int) ++ [0x00, 0x00, 0x00, 0x01])

/-- The fixed header of `move_to` (lines 125-131): unit id, function
0x10 (Write Multiple Registers), start address 0x0058, register count
16, byte count 32. -/
def moveHeader : List Nat :=
  [SLAVE_ID, 0x10, 0x00, 0x58, 0x00, 0x10, 0x20]

/-- `packet = header + payload` (line 133). -/
def movePacket (angle : Int) : List Nat := moveHeader ++ movePayload angle

/-- `full = packet + crc` (lines 134-135), CRC little-endian. -/
def moveFull (angle : Int) : List Nat := buildFrame (movePacket angle)

/-- The acknowledgement test of `move_to` (lines 177-179): standard
Modbus echo (length ≥ 3, unit id, function 0x10) or one of the two
literal alternate hex prefixes `7e25` / `0190044dc3`. -/
def moveAck (resp : List Nat) : Bool :=
  (decide (resp.length ≥ 3) && (resp.getD 0 0 == SLAVE_ID) && (resp.getD 1 0 == 0x10)) ||
    (resp.take 2 == [0x7E, 0x25]) ||
    (resp.take 5 == [0x01, 0x90, 0x04, 0x4D, 0xC3])

/-! ## Motion pacer (motor_cont.py, controllers/motor_controller.py) -/

/-- One observable motor-driver interaction of the pacer. -/
inductive MEvent
  | move (angle : Int) (ok : Bool)
  | clearAlarm (ok : Bool)
  | stop
  | pollBusy (busy : Bool)
deriving DecidableEq, Repr

/-- The motor driver as an oracle: the result of the `k`-th `move_to`
call and of the `k`-th `clear_alarm` call.  `MotorDriver.move_to` and
`clear_alarm` catch every exception internally and return a status, so
they are total boolean-valued operations. -/
structure DriverOracle where
  moveOk : Nat → Bool
  clearOk : Nat → Bool

/-- `_paced_move` (motor_cont.py lines 105-119, equivalently
controllers/motor_controller.py lines 94-143): issue the move; on
failure, one `clear_alarm`, then one retry of the same angle, whose
result is returned.  `k` is the index of the next `move_to` call in
the oracle; the sleeps and buffer drains of the source carry no
transport interaction and are not recorded. -/
def paced_move (d : DriverOracle) (k : Nat) (angle : Int) :
    Bool × Nat × List MEvent :=
  let ok1 := d.moveOk k
  if ok1 then
    (true, k + 1, [MEvent.move angle true])
  else
    let okr := d.moveOk (k + 1)
    (okr, k + 2,
      [MEvent.move angle false, MEvent.clearAlarm (d.clearOk k), MEvent.move angle okr])

/-- The busy-poll loop of `_budget_wait_or_stop` (motor_cont.py lines
74-80 and 94-101): poll `is_busy` while fuel remains; stop polling as
soon as it reports not busy.  Returns (finished-within-fuel?, trace);
`j` is the index of the next `is_busy` call. -/
def pollPhase (busy : Nat → Bool) : Nat → Nat → Bool × List MEvent
  | _, 0 => (false, [])
  | j, n + 1 =>
    if busy j then
      let s := pollPhase busy (j + 1) n
      (s.1, MEvent.pollBusy true :: s.2)
    else
      (true, [MEvent.pollBusy false])

/-- `_budget_wait_or_stop` (motor_cont.py lines 65-103), discretized:
the wall-clock budget admits `nBudget` polls at the fixed interval and
the 1.2 s grace window admits `nGrace`.  If the motion finishes within
the budget, return; otherwise issue one `stop()` and poll through the
grace window. -/
def budget_wait_or_stop (busy : Nat → Bool) (nBudget nGrace : Nat) : List MEvent :=
  let p := pollPhase busy 0 nBudget
  if p.1 then
    p.2
  else
    let g := pollPhase busy nBudget nGrace
    p.2 ++ [MEvent.stop] ++ g.2

/-! ## Claim C1: invalid setpoint ranges are rejected before any I/O -/

/-- Claim C1: for every input pair, `write_setpoints_c` derives
`low = heater - 2` and `high = cooling + 5`, clamps the four values to
their safe ranges, and when the clamped quad violates
`low < heater - 1 ∧ heater < cooling - 1 ∧ cooling < high - 1` it
raises the invalid-range `ValueError` with an empty transport trace
(zero register reads or writes) and a completely unchanged world. -/
theorem write_setpoints_c_rejects_invalid (w : ACWorld) (heater_c cooling_c : ℚ)
    (hbad : ¬(clamp (heater_c - 2) (-20) 25 < clamp heater_c (-5) 35 - 1 ∧
              clamp heater_c (-5) 35 < clamp cooling_c 20 60 - 1 ∧
              clamp cooling_c 20 60 < clamp (cooling_c + 5) 30 80 - 1)) :
    write_setpoints_c w heater_c cooling_c = (false, w, []) := by
  unfold write_setpoints_c
  rw [if_neg hbad]

/-- Witness for C1: heater 30 °C with cooling 21 °C fails the ordering
check (heater is not below cooling − 1) and is rejected without I/O. -/
theorem write_setpoints_c_rejects_invalid_witness :
    write_setpoints_c ⟨some 4, fun _ => 0, fun _ => true⟩ 30 21 =
      (false, ⟨some 4, fun _ => 0, fun _ => true⟩, []) :=
  write_setpoints_c_rejects_invalid _ 30 21 (by norm_num [clamp])

/-! ## Claim C2: write order and values of a validated setpoint write -/

/-- Claim C2 counterexample: the claim asserts that
`write_setpoints_c(heater_c=18.0, cooling_c=22.0)` performs exactly
four register writes ending with high = 270.  On the code, the derived
high alarm 27.0 °C is clamped up to the lower bound 30 °C of its safe
range, so the high-alarm register value is 300 — no write of 270 ever
occurs — and when the network-setpoints bit of the current flags word
is clear (flags = 0 here) the four setpoint writes are additionally
bracketed by two enable-flags writes, for six register writes in
total. -/
theorem write_setpoints_c_example_counterexample :
    (write_setpoints_c ⟨some 4, fun _ => 0, fun _ => true⟩ 18 22).2.2 =
      [ACEvent.read 4,
       ACEvent.read 4, ACEvent.write 4 1536 true,
       ACEvent.write 2 160 true, ACEvent.write 3 180 true,
       ACEvent.write 0 220 true, ACEvent.write 1 300 true,
       ACEvent.read 4, ACEvent.write 4 1024 true] ∧
    ACEvent.write 1 270 true ∉
      (write_setpoints_c ⟨some 4, fun _ => 0, fun _ => true⟩ 18 22).2.2 ∧
    (writeEventsOf (write_setpoints_c ⟨some 4, fun _ => 0, fun _ => true⟩ 18 22).2.2).length
      ≠ 4 := by
  have htr : (write_setpoints_c ⟨some 4, fun _ => 0, fun _ => true⟩ 18 22).2.2 =
      [ACEvent.read 4,
       ACEvent.read 4, ACEvent.write 4 1536 true,
       ACEvent.write 2 160 true, ACEvent.write 3 180 true,
       ACEvent.write 0 220 true, ACEvent.write 1 300 true,
       ACEvent.read 4, ACEvent.write 4 1024 true] := by
    unfold write_setpoints_c
    rw [if_pos (by norm_num [clamp])]
    norm_num [net_on_from_flags, power_on_from_flags, write_flags, flagsWordOf,
      flagsWord, tryAddrs, writeReg, doWritesLoop, REG_ENABLE_FLAGS_READ,
      REG_ENABLE_FLAGS_WRITE_CAND, REG_SET_ALARM_LO, REG_SET_HEATER, REG_SET_COOL,
      REG_SET_ALARM_HI, BIT_INPUT1_INVERT, BIT_LOCK_KEYPAD, BIT_NETWORK_SETPOINTS,
      c_to_reg, pyRound, clamp]
    decide
  refine ⟨htr, ?_, ?_⟩
  · rw [htr]; decide
  · rw [htr]; decide

/-- Claim C2, amended: whenever `write_setpoints_c` passes validation,
the network-setpoints bit is already set in the flags word read, and
the transport accepts writes, the call performs exactly four register
writes — low-alarm, heater, cooling, high-alarm, in that order, each
value the clamped Celsius value times 10 rounded to an integer —
preceded only by the flags read.  In particular
`write_setpoints_c(heater_c=18.0, cooling_c=22.0)` writes low=160,
heater=180, cooling=220, high=300 (27.0 °C clamped up to the 30 °C
minimum of the high-alarm safe range) in that order. -/
theorem write_setpoints_c_valid_write_order (w : ACWorld) (heater_c cooling_c : ℚ)
    (hgood : clamp (heater_c - 2) (-20) 25 < clamp heater_c (-5) 35 - 1 ∧
             clamp heater_c (-5) 35 < clamp cooling_c 20 60 - 1 ∧
             clamp cooling_c 20 60 < clamp (cooling_c + 5) 30 80 - 1)
    (hnet : net_on_from_flags (w.regs REG_ENABLE_FLAGS_READ) = true)
    (hwr : ∀ a, w.writeOk a = true) :
    (write_setpoints_c w heater_c cooling_c).1 = true ∧
    (write_setpoints_c w heater_c cooling_c).2.2 =
      [ACEvent.read REG_ENABLE_FLAGS_READ,
       ACEvent.write REG_SET_ALARM_LO (c_to_reg (clamp (heater_c - 2) (-20) 25)) true,
       ACEvent.write REG_SET_HEATER (c_to_reg (clamp heater_c (-5) 35)) true,
       ACEvent.write REG_SET_COOL (c_to_reg (clamp cooling_c 20 60)) true,
       ACEvent.write REG_SET_ALARM_HI (c_to_reg (clamp (cooling_c + 5) 30 80)) true] := by
  unfold write_setpoints_c
  rw [if_pos hgood]
  simp [hnet, doWritesLoop, writeReg, hwr]

/-- Witness for amended C2: the example input (18 °C, 22 °C) against a
device whose network-setpoints bit is already on: the trace is the
flags read followed by exactly the four setpoint writes
low(160), heater(180), cooling(220), high(300). -/
theorem write_setpoints_c_valid_write_order_witness :
    (write_setpoints_c ⟨some 4, fun _ => 512, fun _ => true⟩ 18 22).1 = true ∧
    (write_setpoints_c ⟨some 4, fun _ => 512, fun _ => true⟩ 18 22).2.2 =
      [ACEvent.read 4, ACEvent.write 2 160 true, ACEvent.write 3 180 true,
       ACEvent.write 0 220 true, ACEvent.write 1 300 true] := by
  have h := write_setpoints_c_valid_write_order ⟨some 4, fun _ => 512, fun _ => true⟩ 18 22
    (by norm_num [clamp]) (by decide) (fun a => rfl)
  refine ⟨h.1, h.2.trans ?_⟩
  norm_num [c_to_reg, pyRound, clamp, REG_ENABLE_FLAGS_READ, REG_SET_ALARM_LO,
    REG_SET_HEATER, REG_SET_COOL, REG_SET_ALARM_HI]

/-! ## Helper lemmas about the flags word and the candidate write loop -/

/-- Every write attempt issued by the candidate loop carries the
computed flags word. -/
theorem tryAddrs_val (l : List Nat) (word : Nat) :
    ∀ (w : ACWorld) {a : Nat} {v : Int} {ok : Bool},
      ACEvent.write a v ok ∈ (tryAddrs w word l).2.2 → v = (word : Int) := by
  induction l with
  | nil => intro w a v ok h; simp [tryAddrs] at h
  | cons b rest ih =>
    intro w a v ok h
    unfold tryAddrs at h
    by_cases hw : w.writeOk b
    · simp [writeReg, hw] at h
      exact h.2.1
    · simp [writeReg, hw] at h
      rcases h with h | h
      · exact h.2.1
      · exact ih _ h

/-- Every write attempt issued by `write_flags` carries the word
computed from `power_on`, `force_net` and the currently-read flags. -/
theorem write_flags_write_val (w : ACWorld) (p : Bool) (fn : Option Bool)
    {a : Nat} {v : Int} {ok : Bool}
    (h : ACEvent.write a v ok ∈ (write_flags w p fn).2.2) :
    v = (flagsWordOf p fn (w.regs REG_ENABLE_FLAGS_READ) : Int) := by
  unfold write_flags at h
  rcases List.mem_cons.mp h with h | h
  · exact absurd h (by simp)
  · exact tryAddrs_val _ _ _ h

/-- Bit-level description of the assembled flags word. -/
theorem flagsWord_testBit (p net : Bool) (i : Nat) :
    (flagsWord p net).testBit i =
      ((decide (8 = i) && !p) || decide (10 = i) || (decide (9 = i) && net)) := by
  rcases Nat.lt_or_ge i 11 with hi | hi
  · interval_cases i <;> cases p <;> cases net <;> decide
  · have hlt : flagsWord p net < 2 ^ i := by
      calc flagsWord p net < 2 ^ 11 := by cases p <;> cases net <;> decide
        _ ≤ 2 ^ i := Nat.pow_le_pow_right (by decide) hi
    rw [Nat.testBit_lt_two_pow hlt]
    have h8 : ¬(8 = i) := by omega
    have h9 : ¬(9 = i) := by omega
    have h10 : ¬(10 = i) := by omega
    simp [h8, h9, h10]

/-- Boolean equality on naturals as a `decide`. -/
theorem beq_nat_decide (a b : Nat) : (a == b) = decide (a = b) := by
  by_cases h : a = b
  · subst h; simp
  · simp [h]

/-- The source's shift-and-mask NET test agrees with `Nat.testBit`. -/
theorem net_on_eq_testBit (x : Nat) : net_on_from_flags x = x.testBit 9 := by
  unfold net_on_from_flags BIT_NETWORK_SETPOINTS
  rw [Nat.and_one_is_mod, Nat.shiftRight_eq_div_pow, beq_nat_decide,
    Nat.testBit_to_div_mod]

/-! ## Claim C3: active-low power mapping of the flags word -/

/-- Claim C3: every word written by `write_flags` has the power bit
(bit 8) cleared exactly when `power_on` is true (active-low), the
keypad-lock bit (bit 10) set, and the temperature-unit bit (bit 11)
cleared — for every current flags value and every `force_net`; and
reading back the flags word 0b0000_0101_0000_0000,
`power_on_from_flags` returns `false`. -/
theorem write_flags_power_mapping :
    (∀ (w : ACWorld) (p : Bool) (fn : Option Bool) (a : Nat) (v : Int) (ok : Bool),
        ACEvent.write a v ok ∈ (write_flags w p fn).2.2 →
        ∃ net : Bool, v = (flagsWord p net : Int) ∧
          (flagsWord p net).testBit 8 = !p ∧
          (flagsWord p net).testBit 10 = true ∧
          (flagsWord p net).testBit 11 = false) ∧
    power_on_from_flags 0b0000010100000000 = false := by
  constructor
  · intro w p fn a v ok h
    have hv := write_flags_write_val w p fn h
    cases fn with
    | none =>
      refine ⟨net_on_from_flags (w.regs REG_ENABLE_FLAGS_READ), hv, ?_, ?_, ?_⟩ <;>
        (rw [flagsWord_testBit]; simp)
    | some b =>
      refine ⟨b, hv, ?_, ?_, ?_⟩ <;> (rw [flagsWord_testBit]; simp)
  · decide

/-- Witness for C3: the successful write issued by
`write_flags(power_on=True)` against a device with flags 0 carries the
word 1024 = keypad-lock only, whose bits are as claimed. -/
theorem write_flags_power_mapping_witness :
    ∃ net : Bool, (1024 : Int) = (flagsWord true net : Int) ∧
      (flagsWord true net).testBit 8 = !true ∧
      (flagsWord true net).testBit 10 = true ∧
      (flagsWord true net).testBit 11 = false :=
  write_flags_power_mapping.1 ⟨none, fun _ => 0, fun _ => true⟩ true none 4 1024 true
    (by decide)

/-! ## Claim C10: no stray bits in the written flags word -/

/-- Claim C10: every flags word assembled by `write_flags` has all
bits outside positions 8 (power-invert), 9 (network-setpoints) and
10 (keypad-lock) equal to zero; the currently-read flags influence the
word only through bit 9 (nothing else of the old word is preserved);
and every write attempt of `write_flags` carries exactly that word. -/
theorem write_flags_word_scope :
    (∀ (p : Bool) (fn : Option Bool) (cur i : Nat),
        i ≠ 8 → i ≠ 9 → i ≠ 10 → (flagsWordOf p fn cur).testBit i = false) ∧
    (∀ (p : Bool) (fn : Option Bool) (cur cur' : Nat),
        cur.testBit 9 = cur'.testBit 9 → flagsWordOf p fn cur = flagsWordOf p fn cur') ∧
    (∀ (w : ACWorld) (p : Bool) (fn : Option Bool) (a : Nat) (v : Int) (ok : Bool),
        ACEvent.write a v ok ∈ (write_flags w p fn).2.2 →
        v = (flagsWordOf p fn (w.regs REG_ENABLE_FLAGS_READ) : Int)) := by
  refine ⟨?_, ?_, ?_⟩
  · intro p fn cur i h8 h9 h10
    unfold flagsWordOf
    rw [flagsWord_testBit]
    simp [(show ¬(8 = i) from fun h => h8 h.symm),
      (show ¬(9 = i) from fun h => h9 h.symm),
      (show ¬(10 = i) from fun h => h10 h.symm)]
  · intro p fn cur cur' h
    unfold flagsWordOf
    cases fn with
    | some b => rfl
    | none => rw [net_on_eq_testBit, net_on_eq_testBit, h]
  · intro w p fn a v ok h
    exact write_flags_write_val w p fn h

/-- Witness for C10: bit 0 of the word assembled for
`write_flags(power_on=True)` over current flags 0 is clear. -/
theorem write_flags_word_scope_witness :
    (flagsWordOf true none 0).testBit 0 = false :=
  write_flags_word_scope.1 true none 0 0 (by decide) (by decide) (by decide)

/-! ## Claim C4: write-address stickiness of the flags register -/

/-- Claim C4: with a remembered flags write address `a`, `write_flags`
attempts exactly the single address `a` (never another candidate) and
keeps remembering it on success; with no remembered address it probes
the candidates 4 then 6 in order, stops at and remembers the first
success, and raises the last error exactly when every candidate fails
(leaving no remembered address); connect-time detection remembers the
first candidate accepting an echo write; and any successful
`write_flags` leaves a remembered address, so subsequent calls fall
into the sticky case until detection is re-run. -/
theorem write_flags_sticky_address :
    (∀ (w : ACWorld) (p : Bool) (fn : Option Bool) (a : Nat), w.fwa = some a →
        writeAddrsOf (write_flags w p fn).2.2 = [a] ∧
        ((write_flags w p fn).1 = true → (write_flags w p fn).2.1.fwa = some a)) ∧
    (∀ (w : ACWorld) (p : Bool) (fn : Option Bool), w.fwa = none →
        ((write_flags w p fn).1 = false ↔ w.writeOk 4 = false ∧ w.writeOk 6 = false) ∧
        (w.writeOk 4 = true →
          writeAddrsOf (write_flags w p fn).2.2 = [4] ∧
          (write_flags w p fn).2.1.fwa = some 4) ∧
        (w.writeOk 4 = false →
          writeAddrsOf (write_flags w p fn).2.2 = [4, 6] ∧
          (w.writeOk 6 = true → (write_flags w p fn).2.1.fwa = some 6) ∧
          (w.writeOk 6 = false → (write_flags w p fn).2.1.fwa = none))) ∧
    (∀ w : ACWorld, (detectFlags w).1.fwa =
        if w.writeOk 4 then some 4 else if w.writeOk 6 then some 6 else none) ∧
    (∀ (w : ACWorld) (p : Bool) (fn : Option Bool),
        (write_flags w p fn).1 = true → ∃ b, (write_flags w p fn).2.1.fwa = some b) := by
  refine ⟨?_, ?_, ?_, ?_⟩
  · intro w p fn a hfwa
    by_cases hw : w.writeOk a <;>
      simp [write_flags, tryAddrs, writeReg, hfwa, hw, writeAddrsOf]
  · intro w p fn hfwa
    by_cases h4 : w.writeOk 4 <;> by_cases h6 : w.writeOk 6 <;>
      simp [write_flags, tryAddrs, writeReg, REG_ENABLE_FLAGS_WRITE_CAND, hfwa,
        h4, h6, writeAddrsOf]
  · intro w
    by_cases h4 : w.writeOk 4 <;> by_cases h6 : w.writeOk 6 <;>
      simp [detectFlags, detectLoop, writeReg, REG_ENABLE_FLAGS_WRITE_CAND, h4, h6]
  · intro w p fn hok
    rcases hfwa : w.fwa with _ | a
    · by_cases h4 : w.writeOk 4 <;> by_cases h6 : w.writeOk 6 <;>
        simp_all [write_flags, tryAddrs, writeReg, REG_ENABLE_FLAGS_WRITE_CAND, hfwa]
    · by_cases hw : w.writeOk a <;>
        simp_all [write_flags, tryAddrs, writeReg, hfwa]

/-- Witness for C4: with remembered address 6, the only attempted
write address is 6, and success keeps 6 remembered. -/
theorem write_flags_sticky_address_witness :
    writeAddrsOf (write_flags ⟨some 6, fun _ => 0, fun _ => true⟩ true none).2.2 = [6] ∧
    ((write_flags ⟨some 6, fun _ => 0, fun _ => true⟩ true none).1 = true →
      (write_flags ⟨some 6, fun _ => 0, fun _ => true⟩ true none).2.1.fwa = some 6) :=
  write_flags_sticky_address.1 ⟨some 6, fun _ => 0, fun _ => true⟩ true none 6 rfl

/-! ## Claim C5: one clear-alarm retry per paced move -/

/-- Claim C5: for every paced move, if the first `move_to` fails the
pacer performs exactly one `clear_alarm` followed by exactly one retry
of the same angle and returns the retry's result; `move_to` is called
at most twice per paced move; and with a driver that fails the first
move and succeeds on the post-clear retry, the pacer reports success. -/
theorem paced_move_single_retry (d : DriverOracle) (k : Nat) (angle : Int) :
    ((paced_move d k angle).2.2.filter
      (fun e => match e with | MEvent.move _ _ => true | _ => false)).length ≤ 2 ∧
    ((paced_move d k angle).2.2.filter
      (fun e => match e with | MEvent.clearAlarm _ => true | _ => false)).length ≤ 1 ∧
    (d.moveOk k = true →
      (paced_move d k angle).1 = true ∧
      (paced_move d k angle).2.2 = [MEvent.move angle true]) ∧
    (d.moveOk k = false →
      (paced_move d k angle).1 = d.moveOk (k + 1) ∧
      (paced_move d k angle).2.2 =
        [MEvent.move angle false, MEvent.clearAlarm (d.clearOk k),
         MEvent.move angle (d.moveOk (k + 1))]) := by
  by_cases h : d.moveOk k <;> simp [paced_move, h]

/-- Witness for C5: a driver whose first `move_to` fails and whose
second (post-`clear_alarm`) call succeeds: the pacer reports success. -/
theorem paced_move_single_retry_witness :
    (paced_move ⟨fun j => j == 1, fun _ => true⟩ 0 (-2250)).1 = true := by
  have h := (paced_move_single_retry ⟨fun j => j == 1, fun _ => true⟩ 0 (-2250)).2.2.2
    (by decide)
  exact h.1.trans (by decide)

/-! ## Claim C6: budgeted stop in the cyclic-motion mode -/

/-- Within one polling window all events are busy polls, and when the
motor stays busy the window runs to exhaustion. -/
theorem pollPhase_all_busy (busy : Nat → Bool) :
    ∀ (n j : Nat), (∀ k, j ≤ k → k < j + n → busy k = true) →
      pollPhase busy j n = (false, List.replicate n (MEvent.pollBusy true)) := by
  intro n
  induction n with
  | zero => intro j _; rfl
  | succ m ih =>
    intro j h
    have hj : busy j = true := h j (Nat.le_refl j) (by omega)
    have hrec := ih (j + 1) (fun k hk1 hk2 => h k (by omega) (by omega))
    simp [pollPhase, hj, hrec, List.replicate_succ]

/-- A polling window emits at most one event per admitted poll. -/
theorem pollPhase_length (busy : Nat → Bool) :
    ∀ (n j : Nat), (pollPhase busy j n).2.length ≤ n := by
  intro n
  induction n with
  | zero => intro j; simp [pollPhase]
  | succ m ih =>
    intro j
    by_cases hj : busy j <;> simp [pollPhase, hj]
    exact ih (j + 1)

/-- A polling window never issues a stop. -/
theorem pollPhase_no_stop (busy : Nat → Bool) :
    ∀ (n j : Nat), MEvent.stop ∉ (pollPhase busy j n).2 := by
  intro n
  induction n with
  | zero => intro j; simp [pollPhase]
  | succ m ih =>
    intro j
    by_cases hj : busy j <;> simp [pollPhase, hj]
    exact ih (j + 1)

/-- If the motor reports idle at some poll inside the window, the
window finishes early. -/
theorem pollPhase_finishes (busy : Nat → Bool) :
    ∀ (n j : Nat), (∃ k, j ≤ k ∧ k < j + n ∧ busy k = false) →
      (pollPhase busy j n).1 = true := by
  intro n
  induction n with
  | zero =>
    intro j h
    rcases h with ⟨k, h1, h2, _⟩
    omega
  | succ m ih =>
    intro j h
    by_cases hj : busy j
    · rcases h with ⟨k, h1, h2, h3⟩
      have hk : j + 1 ≤ k := by
        rcases Nat.eq_or_lt_of_le h1 with rfl | hlt
        · rw [hj] at h3; cases h3
        · exact hlt
      have := ih (j + 1) ⟨k, hk, by omega, h3⟩
      simp [pollPhase, hj, this]
    · simp [pollPhase, hj]

/-- Claim C6: in the cyclic-motion mode, if `is_busy` stays true for
every poll that fits in the per-move budget, the pacer issues exactly
one `stop()` — placed exactly after the budget's polls, never sooner,
never repeated — and then polls for at most the grace window before
proceeding; and if the motor goes idle within the budget, no stop is
ever issued. -/
theorem budget_wait_or_stop_single_stop (busy : Nat → Bool) (nBudget nGrace : Nat) :
    ((∀ k, k < nBudget → busy k = true) →
      budget_wait_or_stop busy nBudget nGrace =
        List.replicate nBudget (MEvent.pollBusy true) ++ [MEvent.stop] ++
          (pollPhase busy nBudget nGrace).2 ∧
      (budget_wait_or_stop busy nBudget nGrace).count MEvent.stop = 1 ∧
      (pollPhase busy nBudget nGrace).2.length ≤ nGrace ∧
      MEvent.stop ∉ (pollPhase busy nBudget nGrace).2) ∧
    ((∃ k, k < nBudget ∧ busy k = false) →
      (budget_wait_or_stop busy nBudget nGrace).count MEvent.stop = 0) := by
  constructor
  · intro h
    have hp := pollPhase_all_busy busy nBudget 0 (fun k _ hk => h k (by omega))
    have htr : budget_wait_or_stop busy nBudget nGrace =
        List.replicate nBudget (MEvent.pollBusy true) ++ [MEvent.stop] ++
          (pollPhase busy nBudget nGrace).2 := by
      unfold budget_wait_or_stop
      rw [hp]
      simp
    refine ⟨htr, ?_, pollPhase_length busy nGrace nBudget,
      pollPhase_no_stop busy nGrace nBudget⟩
    rw [htr]
    rw [List.count_append, List.count_append]
    have h1 : (List.replicate nBudget (MEvent.pollBusy true)).count MEvent.stop = 0 := by
      rw [List.count_eq_zero]
      intro hmem
      have := List.eq_of_mem_replicate hmem
      cases this
    have h2 : (pollPhase busy nBudget nGrace).2.count MEvent.stop = 0 := by
      rw [List.count_eq_zero]
      exact pollPhase_no_stop busy nGrace nBudget
    rw [h1, h2]
    rfl
  · intro h
    rcases h with ⟨k, hk, hb⟩
    have hfin := pollPhase_finishes busy nBudget 0 ⟨k, by omega, by omega, hb⟩
    unfold budget_wait_or_stop
    rw [if_pos hfin]
    rw [List.count_eq_zero]
    exact pollPhase_no_stop busy nBudget 0

/-- Witness for C6: a motor that never reports idle, with a budget of
three polls and a grace window of two: exactly one stop is issued. -/
theorem budget_wait_or_stop_single_stop_witness :
    (budget_wait_or_stop (fun _ => true) 3 2).count MEvent.stop = 1 :=
  ((budget_wait_or_stop_single_stop (fun _ => true) 3 2).1 (fun _ _ => rfl)).2.1

/-! ## CRC-16 helper lemmas -/

/-- The low-bit mask as a `Nat.testBit`. -/
theorem decide_and_one (x : Nat) : decide (x &&& 1 = 1) = x.testBit 0 := by
  rw [Nat.and_one_is_mod, Nat.testBit_zero]

/-- Right shift distributes over XOR. -/
theorem shiftRight_xor (x y n : Nat) :
    (x ^^^ y) >>> n = (x >>> n) ^^^ (y >>> n) := by
  apply Nat.eq_of_testBit_eq
  intro i
  simp [Nat.testBit_shiftRight, Nat.testBit_xor]

/-- One source CRC round on `crc ^^^ b` splits into one reference bit
step on `crc` against the low bit of `b`, with the rest of `b` carried
along by XOR. -/
theorem crcRound_xor (crc b : Nat) :
    crcRound (crc ^^^ b) = crcSpecStep (b.testBit 0) crc ^^^ (b >>> 1) := by
  unfold crcRound crcSpecStep
  rw [decide_and_one]
  simp only [Nat.and_one_is_mod, Nat.mod_two_eq_one_iff_testBit_zero, Nat.testBit_xor]
  by_cases hc : crc.testBit 0 <;> by_cases hb : b.testBit 0 <;>
    simp only [hc, hb, Bool.xor_true, Bool.xor_false, Bool.not_true, Bool.not_false,
      if_true, if_false, shiftRight_xor] <;>
    ac_rfl

/-- Iterating the source round `k` times on `crc ^^^ b` equals feeding
the `k` low bits of `b` through the reference step. -/
theorem crcRound_iterate (k : Nat) : ∀ crc b : Nat,
    crcRound^[k] (crc ^^^ b) = crcSpecAux k crc b ^^^ (b >>> k) := by
  induction k with
  | zero => intro crc b; simp [crcSpecAux]
  | succ m ih =>
    intro crc b
    rw [Function.iterate_succ_apply, crcRound_xor,
      ih (crcSpecStep (b.testBit 0) crc) (b >>> 1), ← Nat.shiftRight_add,
      Nat.add_comm 1 m]
    rfl

/-- For a byte, eight source rounds equal the reference byte step. -/
theorem crcRound_eight (crc b : Nat) (hb : b < 256) :
    crcRound^[8] (crc ^^^ b) = crcSpecByte crc b := by
  rw [crcRound_iterate 8 crc b]
  have h0 : b >>> 8 = 0 := by
    rw [Nat.shiftRight_eq_div_pow]
    exact Nat.div_eq_of_lt hb
  rw [h0, Nat.xor_zero]
  rfl

/-- Folding the source byte step equals folding the reference byte
step, from any initial CRC state. -/
theorem crc_fold_eq : ∀ (data : List Nat) (crc : Nat), (∀ b ∈ data, b < 256) →
    data.foldl (fun c b => crcRound^[8] (c ^^^ b)) crc = data.foldl crcSpecByte crc := by
  intro data
  induction data with
  | nil => intro crc _; rfl
  | cons b rest ih =>
    intro crc h
    simp only [List.foldl_cons]
    rw [crcRound_eight crc b (h b (List.mem_cons_self b rest))]
    exact ih _ fun x hx => h x (List.mem_cons_of_mem b hx)

/-- One CRC round stays within 16 bits. -/
theorem crcRound_lt (crc : Nat) (h : crc < 65536) : crcRound crc < 65536 := by
  have hs : crc >>> 1 < 65536 :=
    Nat.lt_of_le_of_lt (by rw [Nat.shiftRight_eq_div_pow]; exact Nat.div_le_self crc 2) h
  unfold crcRound
  by_cases h1 : crc &&& 1 = 1 <;> simp only [h1, if_true, if_false]
  · exact Nat.xor_lt_two_pow (n := 16) hs (by decide)
  · exact hs

/-- Iterated CRC rounds stay within 16 bits. -/
theorem crcRound_iterate_lt (k : Nat) : ∀ crc : Nat, crc < 65536 →
    crcRound^[k] crc < 65536 := by
  induction k with
  | zero => intro crc h; exact h
  | succ m ih =>
    intro crc h
    rw [Function.iterate_succ_apply]
    exact ih _ (crcRound_lt crc h)

/-- The CRC of a byte list stays within 16 bits. -/
theorem modbus_crc16_lt_aux : ∀ (data : List Nat) (crc : Nat), crc < 65536 →
    (∀ b ∈ data, b < 256) →
    data.foldl (fun c b => crcRound^[8] (c ^^^ b)) crc < 65536 := by
  intro data
  induction data with
  | nil => intro crc h _; exact h
  | cons b rest ih =>
    intro crc h hb
    simp only [List.foldl_cons]
    refine ih _ ?_ fun x hx => hb x (List.mem_cons_of_mem b hx)
    refine crcRound_iterate_lt 8 _ (Nat.xor_lt_two_pow (n := 16) h ?_)
    exact Nat.lt_of_lt_of_le (hb b (List.mem_cons_self b rest)) (by decide)

/-- `to_bytes(2, 'little')` of a 16-bit value is `[low, high]`. -/
theorem toLeBytes_eq (x : Nat) (h : x < 65536) : toLeBytes x = [x % 256, x / 256] := by
  unfold toLeBytes
  have h1 : x &&& 0xFF = x % 256 := Nat.and_pow_two_sub_one_eq_mod x 8
  have h2 : (x >>> 8) &&& 0xFF = x / 256 := by
    have ha : (x >>> 8) &&& 0xFF = (x >>> 8) % 256 :=
      Nat.and_pow_two_sub_one_eq_mod (x >>> 8) 8
    have hb : x >>> 8 = x / 256 := Nat.shiftRight_eq_div_pow x 8
    rw [ha, hb]
    exact Nat.mod_eq_of_lt (by omega)
  rw [h1, h2]

/-! ## Claim C7: the CRC engine matches the reference definition -/

/-- Claim C7: `modbus_crc16` equals the standard Modbus CRC-16
reference definition (initial value 0xFFFF, reflected polynomial
0xA001 processed bit by bit over each byte); it is a total function
whose result fits 16 bits (so the little-endian append in
`buildFrame` cannot fail); the built frame is the request followed by
the CRC's low byte then high byte; and recomputing the CRC over the
payload part of the built frame yields the identical CRC. -/
theorem modbus_crc16_matches_reference (data : List Nat)
    (hbytes : ∀ b ∈ data, b < 256) :
    modbus_crc16 data = crc16_ref data ∧
    modbus_crc16 data < 65536 ∧
    buildFrame data = data ++ [modbus_crc16 data % 256, modbus_crc16 data / 256] ∧
    (buildFrame data).take data.length = data ∧
    modbus_crc16 ((buildFrame data).take data.length) = modbus_crc16 data := by
  have hlt : modbus_crc16 data < 65536 :=
    modbus_crc16_lt_aux data 0xFFFF (by decide) hbytes
  have htake : (buildFrame data).take data.length = data := by
    unfold buildFrame
    exact List.take_left data _
  refine ⟨crc_fold_eq data 0xFFFF hbytes, hlt, ?_, htake, by rw [htake]⟩
  unfold buildFrame
  rw [toLeBytes_eq _ hlt]

/-- Witness for C7 at the baud-detect request frame
`[1, 3, 0, 0x58, 0, 2]` of `MotorConnectThread.run`. -/
theorem modbus_crc16_matches_reference_witness :
    modbus_crc16 [1, 3, 0, 88, 0, 2] = crc16_ref [1, 3, 0, 88, 0, 2] ∧
    modbus_crc16 [1, 3, 0, 88, 0, 2] < 65536 ∧
    buildFrame [1, 3, 0, 88, 0, 2] =
      [1, 3, 0, 88, 0, 2] ++
        [modbus_crc16 [1, 3, 0, 88, 0, 2] % 256, modbus_crc16 [1, 3, 0, 88, 0, 2] / 256] ∧
    (buildFrame [1, 3, 0, 88, 0, 2]).take 6 = [1, 3, 0, 88, 0, 2] ∧
    modbus_crc16 ((buildFrame [1, 3, 0, 88, 0, 2]).take 6) =
      modbus_crc16 [1, 3, 0, 88, 0, 2] :=
  modbus_crc16_matches_reference [1, 3, 0, 88, 0, 2] (by decide)

/-! ## Claim C8: the move frame is a single fixed generation -/

/-- Claim C8 counterexample: the claim asserts that both known
firmware generations (36 or 32 bytes of payload) are supported through
a configuration chosen at construction.  `MotorDriver.__init__` stores
only the serial object and `move_to` builds one fixed frame: at angle
−100 (as at every angle) the payload is 32 bytes — the 36-byte
generation is not producible. -/
theorem movePayload_single_generation_counterexample :
    (movePayload (-100)).length = 32 ∧ (movePayload (-100)).length ≠ 36 :=
  ⟨rfl, by decide⟩

/-- Claim C8, amended: for every angle, `move_to` serializes the angle
together with the fixed speed and current constants into a single
Write-Multiple-Registers (0x10) frame of fixed total payload length —
but only the one generation hard-coded in the driver: header constants
unit 1, start address 0x0058, register count 16, byte count 0x20, and
a 32-byte payload (byte count = 2 × register count), with no
configuration selecting the other (36-byte) generation. -/
theorem move_to_frame_fixed (angle : Int) :
    moveFull angle =
      (moveHeader ++ movePayload angle) ++
        toLeBytes (modbus_crc16 (moveHeader ++ movePayload angle)) ∧
    (movePayload angle).length = 32 ∧
    moveHeader = [SLAVE_ID, 0x10, 0x00, 0x58, 0x00, 0x10, 0x20] ∧
    moveHeader.getD 5 0 = 16 ∧
    moveHeader.getD 6 0 = 2 * moveHeader.getD 5 0 ∧
    (movePayload angle).length = moveHeader.getD 6 0 :=
  ⟨rfl, rfl, rfl, rfl, rfl, rfl⟩

/-! ## Claim C9: acknowledgement acceptance of move_to -/

/-- Claim C9: `move_to` reports success exactly when the accumulated
response bytes match the standard acknowledgement (length at least 3,
first byte the unit id 1, second byte 0x10) or begin with one of the
alternate literal prefixes `7e25` or `0190044dc3`; every other
response, the empty one included, yields failure (the whole body is
exception-guarded, so the embedded check is a total function). -/
theorem moveAck_accepts_exactly (resp : List Nat) :
    (moveAck resp = true ↔
      ((∃ b rest, resp = 1 :: 16 :: b :: rest) ∨
        (∃ rest, resp = 126 :: 37 :: rest) ∨
        (∃ rest, resp = 1 :: 144 :: 4 :: 77 :: 195 :: rest))) ∧
    moveAck [] = false := by
  constructor
  · rcases resp with _ | ⟨a, _ | ⟨b, _ | ⟨c, _ | ⟨d, _ | ⟨e, tail⟩⟩⟩⟩⟩ <;>
      simp [moveAck, SLAVE_ID]
    omega
  · rfl

end EM27
